import Mathlib

/-!
Shallow embedding of the batch transcription core of `transcription-tool.py`
(classes `TranscriptionEngine` and the relevant parts of `TranscriptionGUI`).

The external `whisper` process is modelled by a `ProcOutcome` per input file:
either the process runs, producing a list of output-stream lines and an exit
code, or an exception (process launch / I/O error) is raised.  The progress
callback is modelled by returning the list of lines passed to it, in order.
The mutable `is_running` flag, read once per loop iteration of
`transcribe_batch` and cleared by `stop()`, is modelled by a function
`running : Nat -> Bool` giving the value observed at the check preceding the
(0-based) iteration index.
-/

/-- Data model: the dictionary appended to `results` in `transcribe_batch`
(`{'file': str(file_path), 'success': success, 'result': result}`). -/
structure JobResult where
  file : String
  success : Bool
  result : String
deriving DecidableEq

/-- Behaviour of the external `whisper` process for one invocation:
`run outLines exitCode` models a successful launch whose combined
stdout/stderr stream yields `outLines` (the chunks returned by `readline`)
and which exits with `exitCode`; `exn msg` models a process launch or I/O
exception with text `msg` (raised at `subprocess.Popen`). -/
inductive ProcOutcome where
  | run (outLines : List String) (exitCode : Int)
  | exn (msg : String)
deriving DecidableEq

/-- Output-stream lines produced by a process outcome (empty when the launch
raised an exception). -/
def proc_out_lines : ProcOutcome → List String
  | ProcOutcome.run outLines _ => outLines
  | ProcOutcome.exn _ => []

/-- The immutable settings of `TranscriptionEngine.__init__` (the mutable
`is_running` flag is modelled separately, as the observation function
`running`). -/
structure TranscriptionEngine where
  model : String
  language : String
deriving DecidableEq

/-- Terminal state of one batch run, following the spec's state machine:
`Stopped` exactly when the loop's `break` under the cleared flag was taken. -/
inductive RunOutcome where
  | Completed
  | Stopped
deriving DecidableEq

/-- Index of the last `'.'` in a character list, if any (Python
`str.rfind('.')` restricted to a found result). -/
def lastDotIdx : List Char → Option Nat
  | [] => none
  | c :: cs =>
    match lastDotIdx cs with
    | some i => some (i + 1)
    | none => if c = '.' then some 0 else none

/-- Boolean suffix test on strings, by character list. -/
def strEndsWith (s suffixStr : String) : Bool :=
  List.isSuffixOf suffixStr.data s.data

/-- Uppercase a string character-wise (Python `str.upper()` on ASCII). -/
def strToUpper (s : String) : String := String.mk (s.data.map Char.toUpper)

/-- Lowercase a string character-wise (Python `str.lower()` on ASCII). -/
def strToLower (s : String) : String := String.mk (s.data.map Char.toLower)

/-- Python `pathlib.PurePath.name`: the final path component (trailing
separators are ignored, as `PurePath` normalises them away). -/
def pathName (p : String) : String :=
  String.mk (((p.data.reverse.dropWhile (fun c => c = '/')).takeWhile
    (fun c => c ≠ '/')).reverse)

/-- Python `pathlib.PurePath.stem`: the final component with its last suffix
removed; CPython computes `i = name.rfind('.')` and returns `name[:i]` when
`0 < i < len(name) - 1`, else `name`. -/
def pathStem (p : String) : String :=
  let n := pathName p
  match lastDotIdx n.data with
  | some i => if 0 < i ∧ i + 1 < n.data.length then String.mk (n.data.take i) else n
  | none => n

/-- Python `str(Path(d) / n)` for a directory string `d` and a relative name
`n`. -/
def pathJoin (d n : String) : String :=
  if d = "" then n
  else if strEndsWith d "/" then d ++ n
  else d ++ "/" ++ n

/-- Python `str.rstrip()` (no argument): drop trailing whitespace. -/
def rstrip (s : String) : String :=
  String.mk ((s.data.reverse.dropWhile Char.isWhitespace).reverse)

/-- The `'='*80` banner used by `transcribe_file`. -/
def eqBar : String := String.mk (List.replicate 80 '=')

/-- The `'#'*80` banner used by `transcribe_batch`. -/
def hashBar : String := String.mk (List.replicate 80 '#')

/-- The whisper command list built in `transcribe_file`. -/
def whisperCmd (self : TranscriptionEngine) (file_path output_format output_dir : String) :
    List String :=
  ["whisper", file_path, "--model", self.model, "--language", self.language,
   "--task", "transcribe", "--output_format", output_format, "--output_dir", output_dir]

/-- The success output path computed at line 101 of the source:
`output_dir / f"{file_path.stem}.{output_format}"`, as a string. -/
def output_file (output_dir file_path output_format : String) : String :=
  pathJoin output_dir (pathStem file_path ++ "." ++ output_format)

/-- Embedding of `TranscriptionEngine.transcribe_file`.  Returns the pair
`(success, result)` returned by the Python method together with the list of
strings passed to the callback, in order. -/
def transcribe_file (self : TranscriptionEngine) (outcome : ProcOutcome)
    (file_path output_dir output_format : String) : (Bool × String) × List String :=
  let name := pathName file_path
  let header := "\n" ++ eqBar ++ "\n📍 Processing: " ++ name ++ "\n" ++ eqBar
  let cmdEcho := "\n$ " ++ String.intercalate " " (whisperCmd self file_path output_format output_dir) ++ "\n"
  match outcome with
  | ProcOutcome.exn msg =>
      ((false, msg), [header, cmdEcho, "\n❌ ERROR in " ++ name ++ ": " ++ msg ++ "\n"])
  | ProcOutcome.run outLines exitCode =>
      let forwarded := (outLines.filter (fun l => l ≠ "")).map rstrip
      if exitCode = 0 then
        ((true, output_file output_dir file_path output_format),
          header :: cmdEcho :: (forwarded ++
            ["\n✅ SUCCESS: " ++ name,
             "📄 Output: " ++ pathName (output_file output_dir file_path output_format) ++ "\n"]))
      else
        ((false, "Transcription failed"),
          header :: cmdEcho :: (forwarded ++ ["\n❌ FAILED: " ++ name ++ "\n"]))

/-- The per-file banner emitted by `transcribe_batch` at line 128, with `idx`
already 1-based. -/
def batch_header (idx total : Nat) (name : String) : String :=
  "\n" ++ hashBar ++ "\n[" ++ toString idx ++ "/" ++ toString total ++
    "] Processing: " ++ name ++ "\n" ++ hashBar

/-- The message emitted when the cleared flag is observed (line 124). -/
def stopped_message : String := "\n⏹️  STOPPED by user\n"

/-- The `JobResult` recorded for one file of a batch. -/
def job_result (self : TranscriptionEngine) (env : String → ProcOutcome)
    (output_dir output_format : String) (file_path : String) : JobResult :=
  { file := file_path,
    success := (transcribe_file self (env file_path) file_path output_dir output_format).1.1,
    result := (transcribe_file self (env file_path) file_path output_dir output_format).1.2 }

/-- The callback lines emitted while transcribing one file of a batch. -/
def file_output (self : TranscriptionEngine) (env : String → ProcOutcome)
    (output_dir output_format : String) (file_path : String) : List String :=
  (transcribe_file self (env file_path) file_path output_dir output_format).2

/-- Loop of `TranscriptionEngine.transcribe_batch` over the remaining files,
where `idx` is the 0-based index of the next file (the source enumerates from
1 and we write `idx + 1` where it writes `idx`).  Returns the accumulated
results, the callback lines, and the terminal state of the run. -/
def transcribe_batch_go (self : TranscriptionEngine) (env : String → ProcOutcome)
    (running : Nat → Bool) (output_dir output_format : String) (total : Nat) :
    List String → Nat → List JobResult × List String × RunOutcome
  | [], _ => ([], [], RunOutcome.Completed)
  | file_path :: rest, idx =>
    if running idx then
      let r := transcribe_file self (env file_path) file_path output_dir output_format
      let k := transcribe_batch_go self env running output_dir output_format total rest (idx + 1)
      ({ file := file_path, success := r.1.1, result := r.1.2 } :: k.1,
       batch_header (idx + 1) total (pathName file_path) :: (r.2 ++ k.2.1),
       k.2.2)
    else
      ([], [stopped_message], RunOutcome.Stopped)

/-- Embedding of `TranscriptionEngine.transcribe_batch`. -/
def transcribe_batch (self : TranscriptionEngine) (env : String → ProcOutcome)
    (running : Nat → Bool) (file_list : List String) (output_dir output_format : String) :
    List JobResult × List String × RunOutcome :=
  transcribe_batch_go self env running output_dir output_format file_list.length file_list 0

/-- Number of loop iterations of `transcribe_batch` that start a file, when
`n` files remain and the next flag check is at index `idx`. -/
def attempted_count (running : Nat → Bool) : Nat → Nat → Nat
  | _, 0 => 0
  | idx, n + 1 => if running idx then attempted_count running (idx + 1) n + 1 else 0

/-- Result of pressing START in the GUI (`TranscriptionGUI.start_transcription`,
lines 403 - 430): with an empty selection the method shows a warning box and
returns before any engine or worker thread is created; otherwise an engine is
built from the current settings and the batch is started. -/
inductive StartResult where
  | warned (title message : String)
  | started (engine : TranscriptionEngine) (files : List String)
deriving DecidableEq

/-- Embedding of the control flow of `TranscriptionGUI.start_transcription`. -/
def start_transcription (selected_files : List String) (model_var language_var : String) :
    StartResult :=
  if selected_files.isEmpty then
    StartResult.warned "No Files" "Please select at least one file to transcribe."
  else
    StartResult.started { model := model_var, language := language_var } selected_files

/-- The success count computed by `TranscriptionGUI.transcription_worker`
(line 443): `sum(1 for r in results if r['success'])`. -/
def success_count (results : List JobResult) : Nat :=
  (results.filter (fun r => r.success)).length

/-- The summary line logged by `transcription_worker` (line 447):
`f"✅ COMPLETE: {success_count}/{total_count} successful"`. -/
def complete_message (results : List JobResult) : String :=
  "✅ COMPLETE: " ++ toString (success_count results) ++ "/" ++
    toString results.length ++ " successful"

/-- Lexicographic code-point comparison of character lists, the order Python
`sorted` uses on strings. -/
def charLeb : List Char → List Char → Bool
  | [], _ => true
  | _ :: _, [] => false
  | a :: as, b :: bs =>
    if a.toNat = b.toNat then charLeb as bs else decide (a.toNat < b.toNat)

/-- Python string comparison `a <= b` (lexicographic by code point). -/
def strLeb (a b : String) : Bool := charLeb a.data b.data

/-- `TranscriptionConfig.SUPPORTED_FORMATS['All']`. -/
def supported_formats_all : List String :=
  [".ts", ".mp4", ".mkv", ".avi", ".mov", ".flv", ".wmv", ".webm",
   ".mp3", ".wav", ".m4a", ".aac", ".flac", ".ogg", ".wma"]

/-- Embedding of `TranscriptionGUI.load_files_from_folder` on the list of
entry names of the folder.  `folder_path.glob(f"*{ext}")` is modelled as the
entries whose name ends with `ext` (glob `*` matches any characters of the
name); the code globs each supported extension and its `.upper()` variant,
then applies `sorted(set(...))`. -/
def load_files_from_folder (entries : List String) : List String :=
  let files := supported_formats_all.flatMap (fun ext =>
    entries.filter (fun f => strEndsWith f ext) ++
      entries.filter (fun f => strEndsWith f (strToUpper ext)))
  if files = [] then []
  else List.insertionSort (fun a b => strLeb a b = true) files.dedup

/-- Formalisation of the claim's words "case-insensitive listing by supported
extension" (spec section 6, File system): an entry name matches when its
lowercase form ends with a supported extension.  Stated from the spec, for
comparison with `load_files_from_folder`. -/
def matches_supported_ext_nocase (name : String) : Bool :=
  supported_formats_all.any (fun ext => strEndsWith (strToLower name) ext)

/-- First character of a string, used to separate the runner's structural
lines (which start with a newline or the page emoji) from the worker's
summary line (which starts with the check-mark emoji). -/
def firstChar (s : String) : Option Char := s.data.head?

/-- Concrete engine used in the concrete instances of the testable
properties. -/
def sample_engine : TranscriptionEngine := { model := "small", language := "en" }

/-- Concrete process environment for the three-file scenario of spec section
8: the second file makes the external tool exit non-zero, the others exit 0. -/
def env_three : String → ProcOutcome := fun f =>
  if f = "b.mp4" then ProcOutcome.run ["detect\n"] 1 else ProcOutcome.run ["detect\n"] 0

/-- Concrete process environment where every invocation succeeds silently. -/
def env_ok : String → ProcOutcome := fun _ => ProcOutcome.run [] 0

/-- Concrete process environment where launching on `bad.mp4` raises. -/
def env_exn_bad : String → ProcOutcome := fun f =>
  if f = "bad.mp4" then ProcOutcome.exn "Permission denied" else ProcOutcome.run [] 0

/-- Observed flag values when `stop()` happens after `k` files: the flag
reads `True` at the first `k` boundary checks and `False` afterwards. -/
def running_until (k : Nat) : Nat → Bool := fun i => decide (i < k)

theorem attempted_count_le (running : Nat → Bool) :
    ∀ n idx : Nat, attempted_count running idx n ≤ n := by
  intro n
  induction n with
  | zero => intro idx; simp [attempted_count]
  | succ m ih =>
    intro idx
    by_cases h : running idx
    · simpa [attempted_count, h] using ih (idx + 1)
    · simp [attempted_count, h]

theorem attempted_count_le_of_false (running : Nat → Bool) (k : Nat)
    (hk : running k = false) :
    ∀ n idx : Nat, idx ≤ k → attempted_count running idx n ≤ k - idx := by
  intro n
  induction n with
  | zero => intro idx _; simp [attempted_count]
  | succ m ih =>
    intro idx hidx
    by_cases h : running idx
    · have hne : idx ≠ k := by
        intro e
        rw [e, hk] at h
        exact Bool.noConfusion h
      have hlt : idx < k := lt_of_le_of_ne hidx hne
      have h1 := ih (idx + 1) hlt
      simp only [attempted_count, h, if_true]
      omega
    · simp [attempted_count, h]

theorem attempted_count_all_true (running : Nat → Bool)
    (hrun : ∀ j, running j = true) :
    ∀ n idx : Nat, attempted_count running idx n = n := by
  intro n
  induction n with
  | zero => intro idx; simp [attempted_count]
  | succ m ih => intro idx; simp [attempted_count, hrun idx, ih (idx + 1)]

theorem running_at_attempted (running : Nat → Bool) :
    ∀ n idx : Nat, attempted_count running idx n < n →
      running (idx + attempted_count running idx n) = false := by
  intro n
  induction n with
  | zero => intro idx h; omega
  | succ m ih =>
    intro idx h
    by_cases hr : running idx
    · simp only [attempted_count, hr, if_true] at h ⊢
      have h' : attempted_count running (idx + 1) m < m := by omega
      have := ih (idx + 1) h'
      rw [show idx + (attempted_count running (idx + 1) m + 1)
            = (idx + 1) + attempted_count running (idx + 1) m from by omega]
      exact this
    · simp only [attempted_count, hr, if_false] at h ⊢
      simpa using hr

theorem transcribe_batch_go_results (self : TranscriptionEngine)
    (env : String → ProcOutcome) (running : Nat → Bool)
    (output_dir output_format : String) (total : Nat) :
    ∀ (fs : List String) (idx : Nat),
      (transcribe_batch_go self env running output_dir output_format total fs idx).1 =
        (fs.take (attempted_count running idx fs.length)).map
          (job_result self env output_dir output_format) := by
  intro fs
  induction fs with
  | nil => intro idx; simp [transcribe_batch_go, attempted_count]
  | cons f rest ih =>
    intro idx
    by_cases h : running idx
    · simp [transcribe_batch_go, attempted_count, h, ih (idx + 1), job_result]
    · simp [transcribe_batch_go, attempted_count, h]

theorem transcribe_batch_go_outcome (self : TranscriptionEngine)
    (env : String → ProcOutcome) (running : Nat → Bool)
    (output_dir output_format : String) (total : Nat) :
    ∀ (fs : List String) (idx : Nat),
      (transcribe_batch_go self env running output_dir output_format total fs idx).2.2 =
        if attempted_count running idx fs.length = fs.length then RunOutcome.Completed
        else RunOutcome.Stopped := by
  intro fs
  induction fs with
  | nil => intro idx; simp [transcribe_batch_go, attempted_count]
  | cons f rest ih =>
    intro idx
    by_cases h : running idx
    · simp [transcribe_batch_go, attempted_count, h, ih (idx + 1)]
    · simp [transcribe_batch_go, attempted_count, h]

theorem transcribe_batch_go_output (self : TranscriptionEngine)
    (env : String → ProcOutcome) (running : Nat → Bool)
    (output_dir output_format : String) (total : Nat) :
    ∀ (fs : List String) (idx : Nat),
      (transcribe_batch_go self env running output_dir output_format total fs idx).2.1 =
        (List.enumFrom idx (fs.take (attempted_count running idx fs.length))).flatMap
          (fun p => batch_header (p.1 + 1) total (pathName p.2) ::
            file_output self env output_dir output_format p.2)
        ++ (if attempted_count running idx fs.length = fs.length then []
            else [stopped_message]) := by
  intro fs
  induction fs with
  | nil => intro idx; simp [transcribe_batch_go, attempted_count]
  | cons f rest ih =>
    intro idx
    by_cases h : running idx
    · simp [transcribe_batch_go, attempted_count, h, ih (idx + 1), file_output]
    · simp [transcribe_batch_go, attempted_count, h]

theorem map_file_job_result (self : TranscriptionEngine) (env : String → ProcOutcome)
    (output_dir output_format : String) :
    ∀ l : List String,
      (l.map (job_result self env output_dir output_format)).map (fun r => r.file) = l := by
  intro l
  induction l with
  | nil => rfl
  | cons x xs ih => simp [job_result, ih]

/-- C1: for every input file list passed to the batch runner, the returned
result sequence preserves input order and position (the i-th result's `file`
field is the i-th input path, stated as `map file = take`), its length never
exceeds the input length, and it is strictly shorter only if the running flag
was observed cleared at the boundary before some file was started. -/
theorem claim1_batch_results_order (self : TranscriptionEngine)
    (env : String → ProcOutcome) (running : Nat → Bool) (file_list : List String)
    (output_dir output_format : String) :
    (transcribe_batch self env running file_list output_dir output_format).1.map
        (fun r => r.file)
      = file_list.take
          (transcribe_batch self env running file_list output_dir output_format).1.length
    ∧ (transcribe_batch self env running file_list output_dir output_format).1.length
        ≤ file_list.length
    ∧ ((transcribe_batch self env running file_list output_dir output_format).1.length
          < file_list.length →
        running
            (transcribe_batch self env running file_list output_dir output_format).1.length
          = false) := by
  have hres := transcribe_batch_go_results self env running output_dir output_format
    file_list.length file_list 0
  have hle := attempted_count_le running file_list.length 0
  unfold transcribe_batch
  rw [hres]
  have hlen : ((file_list.take (attempted_count running 0 file_list.length)).map
      (job_result self env output_dir output_format)).length
      = attempted_count running 0 file_list.length := by
    simp [List.length_take]
    omega
  refine ⟨?_, ?_, ?_⟩
  · rw [hlen, map_file_job_result]
  · rw [hlen]; exact hle
  · intro hlt
    rw [hlen] at hlt ⊢
    have := running_at_attempted running file_list.length 0 hlt
    simpa using this

/-- Witness for C1 at a concrete input: two files, flag observed cleared at
the second boundary, so exactly one result is returned, its `file` field is
the first input, and the flag was indeed observed cleared at index 1. -/
theorem claim1_batch_results_order_witness :
    (transcribe_batch sample_engine env_ok (running_until 1) ["a.mp4", "b.mp4"]
        "/out" "txt").1.map (fun r => r.file)
      = (["a.mp4", "b.mp4"] : List String).take
          (transcribe_batch sample_engine env_ok (running_until 1) ["a.mp4", "b.mp4"]
            "/out" "txt").1.length
    ∧ (transcribe_batch sample_engine env_ok (running_until 1) ["a.mp4", "b.mp4"]
        "/out" "txt").1.length ≤ 2
    ∧ running_until 1
        (transcribe_batch sample_engine env_ok (running_until 1) ["a.mp4", "b.mp4"]
          "/out" "txt").1.length = false := by
  have h := claim1_batch_results_order sample_engine env_ok (running_until 1)
    ["a.mp4", "b.mp4"] "/out" "txt"
  exact ⟨h.1, h.2.1, h.2.2 (by decide)⟩

/-- C2: cooperative cancellation takes effect only at file boundaries: the
result sequence is exactly the per-file results of the attempted prefix of
the input (one `job_result` per attempted file, in order), whose length is
exactly `attempted_count`, the number of boundary checks that read `True`;
if the flag is observed cleared at boundary `k` then `attempted_count` (and
so the number of results) is at most `k`, so no job at index at least `k`
is started, and when files remained the run ends in `Stopped` (not
`Completed`) with the stop message emitted. -/
theorem claim2_cancellation_boundary (self : TranscriptionEngine)
    (env : String → ProcOutcome) (running : Nat → Bool) (file_list : List String)
    (output_dir output_format : String) (k : Nat) (hk : running k = false) :
    (transcribe_batch self env running file_list output_dir output_format).1
        = (file_list.take (attempted_count running 0 file_list.length)).map
          (job_result self env output_dir output_format)
    ∧ (transcribe_batch self env running file_list output_dir output_format).1.length
        = attempted_count running 0 file_list.length
    ∧ attempted_count running 0 file_list.length ≤ k
    ∧ (transcribe_batch self env running file_list output_dir output_format).1.length ≤ k
    ∧ (k < file_list.length →
        (transcribe_batch self env running file_list output_dir output_format).2.2
            = RunOutcome.Stopped
        ∧ (transcribe_batch self env running file_list output_dir output_format).2.2
            ≠ RunOutcome.Completed
        ∧ stopped_message
            ∈ (transcribe_batch self env running file_list output_dir output_format).2.1) := by
  have hres := transcribe_batch_go_results self env running output_dir output_format
    file_list.length file_list 0
  have hout := transcribe_batch_go_outcome self env running output_dir output_format
    file_list.length file_list 0
  have hlines := transcribe_batch_go_output self env running output_dir output_format
    file_list.length file_list 0
  have hle := attempted_count_le running file_list.length 0
  have hlek : attempted_count running 0 file_list.length ≤ k := by
    have := attempted_count_le_of_false running k hk file_list.length 0 (Nat.zero_le k)
    omega
  unfold transcribe_batch
  rw [hres, hout, hlines]
  have hlen : ((file_list.take (attempted_count running 0 file_list.length)).map
      (job_result self env output_dir output_format)).length
      = attempted_count running 0 file_list.length := by
    simp [List.length_take]
    omega
  refine ⟨rfl, hlen, hlek, by rw [hlen]; exact hlek, ?_⟩
  intro hkn
  have hne : attempted_count running 0 file_list.length ≠ file_list.length := by omega
  rw [if_neg hne]
  refine ⟨rfl, by decide, ?_⟩
  rw [if_neg hne]
  simp

/-- Witness for C2 at the spec's concrete scenario: cancellation requested
after the first of two files, so `results` has length exactly 1 and is
exactly the singleton holding the first file's job result; the run reaches
`Stopped`, not `Completed`, emitting the stop message. -/
theorem claim2_cancellation_boundary_witness :
    (transcribe_batch sample_engine env_ok (running_until 1) ["a.mp4", "b.mp4"]
        "/out" "txt").1.length = 1
    ∧ (transcribe_batch sample_engine env_ok (running_until 1) ["a.mp4", "b.mp4"]
        "/out" "txt").1
        = [job_result sample_engine env_ok "/out" "txt" "a.mp4"]
    ∧ (transcribe_batch sample_engine env_ok (running_until 1) ["a.mp4", "b.mp4"]
        "/out" "txt").2.2 = RunOutcome.Stopped
    ∧ (transcribe_batch sample_engine env_ok (running_until 1) ["a.mp4", "b.mp4"]
        "/out" "txt").2.2 ≠ RunOutcome.Completed
    ∧ stopped_message
        ∈ (transcribe_batch sample_engine env_ok (running_until 1) ["a.mp4", "b.mp4"]
            "/out" "txt").2.1 := by
  have h := claim2_cancellation_boundary sample_engine env_ok (running_until 1)
    ["a.mp4", "b.mp4"] "/out" "txt" 1 (by decide)
  have h5 := h.2.2.2.2 (by decide)
  exact ⟨h.2.1.trans (by decide), h.1.trans (by decide), h5.1, h5.2.1, h5.2.2⟩

/-- C3: when the external process exits with code 0 the single-file
transcription returns success together with the deterministic path
`output_dir / (stem ++ "." ++ output_format)`, independent of the content of
the output stream; for input `lecture.mp4`, format `srt` and output dir
`/out` the path is exactly `/out/lecture.srt`. -/
theorem claim3_success_output_path :
    (∀ (self : TranscriptionEngine) (outLines : List String)
        (file_path output_dir output_format : String),
      (transcribe_file self (ProcOutcome.run outLines 0) file_path output_dir
          output_format).1
        = (true, pathJoin output_dir (pathStem file_path ++ "." ++ output_format)))
    ∧ (∀ (self : TranscriptionEngine) (outLines : List String),
      (transcribe_file self (ProcOutcome.run outLines 0) "lecture.mp4" "/out" "srt").1
        = (true, "/out/lecture.srt")) := by
  have h1 : ∀ (self : TranscriptionEngine) (outLines : List String)
      (file_path output_dir output_format : String),
      (transcribe_file self (ProcOutcome.run outLines 0) file_path output_dir
          output_format).1
        = (true, pathJoin output_dir (pathStem file_path ++ "." ++ output_format)) := by
    intro self outLines f d fmt
    simp [transcribe_file, output_file]
  refine ⟨h1, fun self outLines => ?_⟩
  rw [h1]
  decide

/-- C4: with no exception, a non-zero exit code yields a failure whose reason
is the generic text "Transcription failed", and success is returned exactly
when the exit code is 0. -/
theorem claim4_exit_code_classification (self : TranscriptionEngine)
    (outLines : List String) (exitCode : Int)
    (file_path output_dir output_format : String) :
    ((transcribe_file self (ProcOutcome.run outLines exitCode) file_path output_dir
          output_format).1.1 = true
      ↔ exitCode = 0)
    ∧ (exitCode ≠ 0 →
      (transcribe_file self (ProcOutcome.run outLines exitCode) file_path output_dir
          output_format).1
        = (false, "Transcription failed")) := by
  by_cases h : exitCode = 0 <;> simp [transcribe_file, h]

/-- Witness for C4 at a concrete input: exit code 5 yields the generic
failure, and the success flag is false. -/
theorem claim4_exit_code_classification_witness :
    (transcribe_file sample_engine (ProcOutcome.run ["oops\n"] 5) "a.mp4" "/out"
        "txt").1 = (false, "Transcription failed")
    ∧ ((transcribe_file sample_engine (ProcOutcome.run ["oops\n"] 5) "a.mp4" "/out"
        "txt").1.1 = true ↔ (5 : Int) = 0) := by
  have h := claim4_exit_code_classification sample_engine ["oops\n"] 5 "a.mp4" "/out" "txt"
  exact ⟨h.2 (by decide), h.1⟩

/-- C5: a launch or I/O exception while transcribing one file yields a
failure whose reason is the exception text, that failure is recorded as the
job's result at the same index, and the batch continues: with the flag never
cleared, every input file still gets exactly one result. -/
theorem claim5_exception_recovery (self : TranscriptionEngine)
    (env : String → ProcOutcome) (running : Nat → Bool) (file_list : List String)
    (output_dir output_format msg : String) (i : Nat)
    (hrun : ∀ j, running j = true) (hi : i < file_list.length)
    (hexn : env file_list[i] = ProcOutcome.exn msg) :
    (transcribe_file self (ProcOutcome.exn msg) file_list[i] output_dir
        output_format).1 = (false, msg)
    ∧ (transcribe_batch self env running file_list output_dir output_format).1.length
        = file_list.length
    ∧ (transcribe_batch self env running file_list output_dir output_format).1[i]?
        = some { file := file_list[i], success := false, result := msg } := by
  have hres := transcribe_batch_go_results self env running output_dir output_format
    file_list.length file_list 0
  have hall := attempted_count_all_true running hrun file_list.length 0
  unfold transcribe_batch
  rw [hres, hall, List.take_length]
  refine ⟨by simp [transcribe_file], by simp, ?_⟩
  rw [List.getElem?_map, List.getElem?_eq_getElem hi]
  simp [job_result, hexn, transcribe_file]

/-- Witness for C5 at a concrete input: a two-file batch whose first file
raises "Permission denied" still produces two results, and the first result
records the exception text. -/
theorem claim5_exception_recovery_witness :
    (transcribe_file sample_engine (ProcOutcome.exn "Permission denied")
        (["bad.mp4", "b.mp4"] : List String)[0] "/out" "txt").1
      = (false, "Permission denied")
    ∧ (transcribe_batch sample_engine env_exn_bad (fun _ => true) ["bad.mp4", "b.mp4"]
        "/out" "txt").1.length = 2
    ∧ (transcribe_batch sample_engine env_exn_bad (fun _ => true) ["bad.mp4", "b.mp4"]
        "/out" "txt").1[0]?
      = some { file := (["bad.mp4", "b.mp4"] : List String)[0], success := false,
               result := "Permission denied" } := by
  exact claim5_exception_recovery sample_engine env_exn_bad (fun _ => true)
    ["bad.mp4", "b.mp4"] "/out" "txt" "Permission denied" 0 (fun _ => rfl)
    (by decide) (by decide)

/-- C6: starting a run with an empty selection is rejected before anything is
launched: the START handler returns the explicit warning (and returns it only
for an empty selection), and the batch runner itself is a no-op on an empty
file list, emitting nothing and producing no results. -/
theorem claim6_empty_selection_rejected :
    (∀ model_var language_var : String,
      start_transcription [] model_var language_var
        = StartResult.warned "No Files" "Please select at least one file to transcribe.")
    ∧ (∀ (selected_files : List String) (model_var language_var : String),
      start_transcription selected_files model_var language_var
          = StartResult.warned "No Files" "Please select at least one file to transcribe."
        ↔ selected_files = [])
    ∧ (∀ (self : TranscriptionEngine) (env : String → ProcOutcome)
        (running : Nat → Bool) (output_dir output_format : String),
      transcribe_batch self env running [] output_dir output_format
        = ([], [], RunOutcome.Completed)) := by
  refine ⟨fun m l => rfl, ?_, fun s e r d f => rfl⟩
  intro sel m l
  cases sel with
  | nil => simp [start_transcription]
  | cons x xs => simp [start_transcription]

theorem charLeb_total : ∀ as bs : List Char, charLeb as bs = true ∨ charLeb bs as = true := by
  intro as
  induction as with
  | nil => intro bs; left; rfl
  | cons a as ih =>
    intro bs
    cases bs with
    | nil => right; rfl
    | cons b bs' =>
      by_cases h : a.toNat = b.toNat
      · rcases ih bs' with h1 | h1
        · left; simp [charLeb, h, h1]
        · right; simp [charLeb, h.symm, h1]
      · by_cases hlt : a.toNat < b.toNat
        · left; simp [charLeb, h, hlt]
        · right
          have hgt : b.toNat < a.toNat := by omega
          simp [charLeb, Ne.symm h, hgt]

theorem charLeb_trans : ∀ as bs cs : List Char,
    charLeb as bs = true → charLeb bs cs = true → charLeb as cs = true := by
  intro as
  induction as with
  | nil => intro bs cs _ _; rfl
  | cons a as ih =>
    intro bs cs h1 h2
    cases bs with
    | nil => simp [charLeb] at h1
    | cons b bs' =>
      cases cs with
      | nil => simp [charLeb] at h2
      | cons c cs' =>
        simp only [charLeb] at h1 h2 ⊢
        by_cases hab : a.toNat = b.toNat <;> by_cases hbc : b.toNat = c.toNat
        · rw [if_pos hab] at h1
          rw [if_pos hbc] at h2
          rw [if_pos (hab.trans hbc)]
          exact ih bs' cs' h1 h2
        · rw [if_pos hab] at h1
          rw [if_neg hbc] at h2
          have hlt : b.toNat < c.toNat := of_decide_eq_true h2
          rw [if_neg (show a.toNat ≠ c.toNat from by omega)]
          exact decide_eq_true (show a.toNat < c.toNat from by omega)
        · rw [if_neg hab] at h1
          rw [if_pos hbc] at h2
          have hlt : a.toNat < b.toNat := of_decide_eq_true h1
          rw [if_neg (show a.toNat ≠ c.toNat from by omega)]
          exact decide_eq_true (show a.toNat < c.toNat from by omega)
        · rw [if_neg hab] at h1
          rw [if_neg hbc] at h2
          have hlt1 : a.toNat < b.toNat := of_decide_eq_true h1
          have hlt2 : b.toNat < c.toNat := of_decide_eq_true h2
          rw [if_neg (show a.toNat ≠ c.toNat from by omega)]
          exact decide_eq_true (show a.toNat < c.toNat from by omega)

theorem strLeb_total (a b : String) : strLeb a b = true ∨ strLeb b a = true :=
  charLeb_total a.data b.data

theorem strLeb_trans {a b c : String} (h1 : strLeb a b = true) (h2 : strLeb b c = true) :
    strLeb a c = true :=
  charLeb_trans a.data b.data c.data h1 h2

instance : IsTotal String (fun a b => strLeb a b = true) := ⟨strLeb_total⟩

instance : IsTrans String (fun a b => strLeb a b = true) := ⟨fun _ _ _ => strLeb_trans⟩

theorem mem_folder_files (entries : List String) (x : String) :
    (x ∈ supported_formats_all.flatMap (fun ext =>
        entries.filter (fun f => strEndsWith f ext) ++
          entries.filter (fun f => strEndsWith f (strToUpper ext))))
      ↔ x ∈ entries ∧ ∃ ext ∈ supported_formats_all,
          (strEndsWith x ext = true ∨ strEndsWith x (strToUpper ext) = true) := by
  simp only [List.mem_flatMap, List.mem_append, List.mem_filter]
  constructor
  · rintro ⟨ext, hext, ⟨hx, he⟩ | ⟨hx, he⟩⟩
    · exact ⟨hx, ext, hext, Or.inl he⟩
    · exact ⟨hx, ext, hext, Or.inr he⟩
  · rintro ⟨hx, ext, hext, he | he⟩
    · exact ⟨ext, hext, Or.inl ⟨hx, he⟩⟩
    · exact ⟨ext, hext, Or.inr ⟨hx, he⟩⟩

/-- C7 counterexample: folder listing is not case-insensitive as claimed.
The entry `a.Mp4` carries a supported extension up to case (its lowercase
form ends with `.mp4`), yet `load_files_from_folder` does not list it,
because the code only globs the lowercase and all-uppercase variants of each
extension. -/
theorem claim7_case_counterexample :
    matches_supported_ext_nocase "a.Mp4" = true
    ∧ load_files_from_folder ["a.Mp4"] = [] := by
  exact ⟨by decide, by decide⟩

/-- C7 (amended): loading a folder lists entries by supported extension in
lowercase or all-uppercase form (mixed-case variants are not matched) and
yields a deduplicated, sorted file set with no duplicate entries; a folder
containing the case variants `a.MP4` and `a.mp4` yields both, each once, in
sorted order. -/
theorem claim7_folder_load_dedup_sorted :
    (∀ entries : List String,
      (load_files_from_folder entries).Nodup
      ∧ List.Sorted (fun a b => strLeb a b = true) (load_files_from_folder entries)
      ∧ (∀ x, x ∈ load_files_from_folder entries ↔
          x ∈ entries ∧ ∃ ext ∈ supported_formats_all,
            (strEndsWith x ext = true ∨ strEndsWith x (strToUpper ext) = true)))
    ∧ load_files_from_folder ["a.MP4", "a.mp4"] = ["a.MP4", "a.mp4"] := by
  refine ⟨?_, by decide⟩
  intro entries
  unfold load_files_from_folder
  by_cases hemp : supported_formats_all.flatMap (fun ext =>
      entries.filter (fun f => strEndsWith f ext) ++
        entries.filter (fun f => strEndsWith f (strToUpper ext))) = []
  · rw [if_pos hemp]
    refine ⟨List.nodup_nil, List.sorted_nil, ?_⟩
    intro x
    simp only [List.not_mem_nil, false_iff]
    intro hx
    have : x ∈ supported_formats_all.flatMap (fun ext =>
        entries.filter (fun f => strEndsWith f ext) ++
          entries.filter (fun f => strEndsWith f (strToUpper ext))) :=
      (mem_folder_files entries x).2 hx
    rw [hemp] at this
    exact List.not_mem_nil x this
  · rw [if_neg hemp]
    have hperm := List.perm_insertionSort (fun a b => strLeb a b = true)
      (supported_formats_all.flatMap (fun ext =>
        entries.filter (fun f => strEndsWith f ext) ++
          entries.filter (fun f => strEndsWith f (strToUpper ext)))).dedup
    refine ⟨hperm.nodup_iff.2 (List.nodup_dedup _), List.sorted_insertionSort _ _, ?_⟩
    intro x
    rw [hperm.mem_iff, List.mem_dedup, mem_folder_files]

theorem file_output_firstChar (self : TranscriptionEngine) (oc : ProcOutcome)
    (file_path output_dir output_format : String) :
    ∀ l ∈ (transcribe_file self oc file_path output_dir output_format).2,
      firstChar l = some '\n' ∨ firstChar l = some '📄'
        ∨ ∃ l0 ∈ proc_out_lines oc, l = rstrip l0 := by
  cases oc with
  | exn msg =>
    intro l hl
    simp only [transcribe_file, List.mem_cons, List.not_mem_nil, or_false] at hl
    rcases hl with h | h | h
    · left; rw [h]; rfl
    · left; rw [h]; rfl
    · left; rw [h]; rfl
  | run outLines exitCode =>
    intro l hl
    simp only [transcribe_file] at hl
    by_cases h0 : exitCode = 0
    · rw [if_pos h0] at hl
      simp only [proc_out_lines, List.mem_cons, List.mem_append, List.mem_map,
        List.mem_filter, List.not_mem_nil, or_false] at hl ⊢
      rcases hl with h | h | ⟨l0, ⟨hl0, _⟩, he⟩ | h | h
      · left; rw [h]; rfl
      · left; rw [h]; rfl
      · right; right; exact ⟨l0, hl0, he.symm⟩
      · left; rw [h]; rfl
      · right; left; rw [h]; rfl
    · rw [if_neg h0] at hl
      simp only [proc_out_lines, List.mem_cons, List.mem_append, List.mem_map,
        List.mem_filter, List.not_mem_nil, or_false] at hl ⊢
      rcases hl with h | h | ⟨l0, ⟨hl0, _⟩, he⟩ | h
      · left; rw [h]; rfl
      · left; rw [h]; rfl
      · right; right; exact ⟨l0, hl0, he.symm⟩
      · left; rw [h]; rfl

theorem batch_output_firstChar (self : TranscriptionEngine) (env : String → ProcOutcome)
    (running : Nat → Bool) (output_dir output_format : String) (total : Nat) :
    ∀ (fs : List String) (idx : Nat),
      ∀ l ∈ (transcribe_batch_go self env running output_dir output_format total fs idx).2.1,
        firstChar l = some '\n' ∨ firstChar l = some '📄'
          ∨ ∃ f, ∃ l0 ∈ proc_out_lines (env f), l = rstrip l0 := by
  intro fs
  induction fs with
  | nil => intro idx l hl; simp [transcribe_batch_go] at hl
  | cons f rest ih =>
    intro idx l hl
    simp only [transcribe_batch_go] at hl
    by_cases h : running idx
    · rw [if_pos h] at hl
      simp only [List.mem_cons, List.mem_append] at hl
      rcases hl with h1 | h1 | h1
      · left; rw [h1]; rfl
      · rcases file_output_firstChar self (env f) f output_dir output_format l h1 with
          h2 | h2 | ⟨l0, hl0, he⟩
        · exact Or.inl h2
        · exact Or.inr (Or.inl h2)
        · exact Or.inr (Or.inr ⟨f, l0, hl0, he⟩)
      · exact ih (idx + 1) l h1
    · rw [if_neg h] at hl
      simp only [List.mem_cons, List.not_mem_nil, or_false] at hl
      left; rw [hl]; rfl

theorem firstChar_complete_message (results : List JobResult) :
    firstChar (complete_message results) = some '✅' := rfl

/-- C8: the batch runner itself never emits the final success/total summary
(assuming the external tool's own output lines do not spell it): the summary
is the caller's, computed by `transcription_worker` as the count of
successes over the returned results.  In the spec's three-file scenario where
the second file exits non-zero, the results are success, failure, success and
the computed summary line is exactly "✅ COMPLETE: 2/3 successful". -/
theorem claim8_summary_is_callers (self : TranscriptionEngine)
    (env : String → ProcOutcome) (running : Nat → Bool) (file_list : List String)
    (output_dir output_format : String)
    (henv : ∀ f, ∀ l ∈ proc_out_lines (env f),
      rstrip l ≠ complete_message
        (transcribe_batch self env running file_list output_dir output_format).1) :
    complete_message
        (transcribe_batch self env running file_list output_dir output_format).1
      ∉ (transcribe_batch self env running file_list output_dir output_format).2.1
    ∧ (transcribe_batch sample_engine env_three (fun _ => true)
        ["a.mp4", "b.mp4", "c.mp4"] "/out" "txt").1.map (fun r => r.success)
      = [true, false, true]
    ∧ complete_message (transcribe_batch sample_engine env_three (fun _ => true)
        ["a.mp4", "b.mp4", "c.mp4"] "/out" "txt").1
      = "✅ COMPLETE: 2/3 successful" := by
  refine ⟨?_, by decide, by decide⟩
  intro hmem
  rcases batch_output_firstChar self env running output_dir output_format
      file_list.length file_list 0 _ hmem with h | h | ⟨f, l0, hl0, he⟩
  · rw [firstChar_complete_message] at h
    exact absurd h (by decide)
  · rw [firstChar_complete_message] at h
    exact absurd h (by decide)
  · exact henv f l0 hl0 he.symm

/-- C9: for every file the batch runner starts (here: all of them, the flag
never being cleared), it emits through the sink, before that file's own
output, a structural header carrying the 1-based index, the total count and
the filename, and the whole emitted line sequence is exactly those per-file
headers interleaved with each file's forwarded output and notifications, in
input order. -/
theorem claim9_progress_interleaving (self : TranscriptionEngine)
    (env : String → ProcOutcome) (running : Nat → Bool) (file_list : List String)
    (output_dir output_format : String) (hrun : ∀ j, running j = true) :
    (transcribe_batch self env running file_list output_dir output_format).2.1
      = (List.enumFrom 0 file_list).flatMap (fun p =>
          batch_header (p.1 + 1) file_list.length (pathName p.2) ::
            file_output self env output_dir output_format p.2) := by
  have h := transcribe_batch_go_output self env running output_dir output_format
    file_list.length file_list 0
  have hall := attempted_count_all_true running hrun file_list.length 0
  unfold transcribe_batch
  rw [h, hall, List.take_length, if_pos rfl, List.append_nil]

/-- Witness for C9 at a concrete input: a two-file batch with the flag held,
whose emitted lines are exactly the interleaving of the two headers with the
two files' own emissions. -/
theorem claim9_progress_interleaving_witness :
    (transcribe_batch sample_engine env_ok (fun _ => true) ["a.mp4", "b.mp4"]
        "/out" "txt").2.1
      = (List.enumFrom 0 ["a.mp4", "b.mp4"]).flatMap (fun p =>
          batch_header (p.1 + 1) (["a.mp4", "b.mp4"] : List String).length (pathName p.2) ::
            file_output sample_engine env_ok "/out" "txt" p.2) :=
  claim9_progress_interleaving sample_engine env_ok (fun _ => true) ["a.mp4", "b.mp4"]
    "/out" "txt" (fun _ => rfl)

/-- C10: the success output path depends only on the input's stem, the output
directory and the format, so distinct inputs with equal stems are written to
identical output paths: both for `a.mp4` versus `a.wav` and for same-named
files from different folders, while the inputs themselves differ. -/
theorem claim10_stem_collision :
    (∀ (output_dir output_format p q : String), pathStem p = pathStem q →
      output_file output_dir p output_format = output_file output_dir q output_format)
    ∧ (∀ (self : TranscriptionEngine) (la lb : List String),
      (transcribe_file self (ProcOutcome.run la 0) "a.mp4" "/out" "txt").1.2
        = (transcribe_file self (ProcOutcome.run lb 0) "a.wav" "/out" "txt").1.2)
    ∧ (∀ (self : TranscriptionEngine) (la lb : List String),
      (transcribe_file self (ProcOutcome.run la 0) "x/a.mp4" "/out" "txt").1.2
        = (transcribe_file self (ProcOutcome.run lb 0) "y/a.mp4" "/out" "txt").1.2)
    ∧ ("a.mp4" : String) ≠ "a.wav" ∧ pathStem "a.mp4" = pathStem "a.wav" := by
  refine ⟨?_, ?_, ?_, by decide, by decide⟩
  · intro d fmt p q h
    simp [output_file, h]
  · intro self la lb
    simp [transcribe_file]
    decide
  · intro self la lb
    simp [transcribe_file]
    decide

/-- Witness for C3 at the spec's concrete input, by the second conjunct of
the claim's theorem. -/
theorem claim3_success_output_path_witness :
    (transcribe_file sample_engine (ProcOutcome.run ["any output\n"] 0) "lecture.mp4" "/out"
        "srt").1 = (true, "/out/lecture.srt") :=
  claim3_success_output_path.2 sample_engine ["any output\n"]

/-- Witness for C6 at a concrete input: pressing START with no files selected
yields exactly the warning box of the source. -/
theorem claim6_empty_selection_rejected_witness :
    start_transcription [] "small" "en"
      = StartResult.warned "No Files" "Please select at least one file to transcribe." :=
  claim6_empty_selection_rejected.1 "small" "en"

/-- Witness for C7 (amended) at the concrete folder of the claim: both case
variants are loaded, without duplicates. -/
theorem claim7_folder_load_dedup_sorted_witness :
    (load_files_from_folder ["a.MP4", "a.mp4"]).Nodup
    ∧ load_files_from_folder ["a.MP4", "a.mp4"] = ["a.MP4", "a.mp4"] :=
  ⟨(claim7_folder_load_dedup_sorted.1 ["a.MP4", "a.mp4"]).1,
    claim7_folder_load_dedup_sorted.2⟩

/-- Witness for C8 at the concrete three-file scenario: the summary line the
worker computes for this run is not among the lines the batch runner emitted. -/
theorem claim8_summary_is_callers_witness :
    complete_message (transcribe_batch sample_engine env_three (fun _ => true)
        ["a.mp4", "b.mp4", "c.mp4"] "/out" "txt").1
      ∉ (transcribe_batch sample_engine env_three (fun _ => true)
        ["a.mp4", "b.mp4", "c.mp4"] "/out" "txt").2.1 := by
  refine (claim8_summary_is_callers sample_engine env_three (fun _ => true)
    ["a.mp4", "b.mp4", "c.mp4"] "/out" "txt" ?_).1
  intro f l hl
  by_cases hf : f = "b.mp4" <;> simp [env_three, proc_out_lines, hf] at hl <;>
    subst hl <;> decide

/-- Witness for C10 at concrete inputs: `a.mp4` and `a.wav` share a stem, so
their computed output paths coincide. -/
theorem claim10_stem_collision_witness :
    output_file "/out" "a.mp4" "txt" = output_file "/out" "a.wav" "txt" :=
  claim10_stem_collision.1 "/out" "txt" "a.mp4" "a.wav" (by decide)
